import Mathlib

/-!
Damage tracking of a curses window (`pdc_touch.c`).

A shallow embedding of the six functions of
`graphics/pdcurs34/pdcurses/pdc_touch.c`:
`touchwin`, `touchline`, `untouchwin`, `wtouchln`, `is_linetouched` and
`is_wintouched`, followed by theorems about them.

Modelling conventions.

* A `WINDOW *` argument is an `Option WINDOW`; `none` is the null pointer.
  The functions mutate the window in place, so every mutating function
  returns the status together with the window after the call.
* C `int` is modelled by `Int`.  Signed overflow is undefined in C and is
  outside this model: `start + count` and `_maxx - 1` are the mathematical
  sum and difference.
* `_firstch` and `_lastch` are heap arrays; they are modelled by lists whose
  length is the allocated size.  A load or store at an index outside the
  allocation is undefined behaviour in C; here it makes the whole call
  return `none`.  So `some r` reads "the call returns `r`" and `none` reads
  "the call accesses memory outside the bound arrays".
* A loop `for (i = lo; i < hi; i++)` whose body changes neither `i` nor `hi`
  runs its body `max (hi - lo) 0` times, for `i = lo, lo + 1, ...`.
* `PDC_LOG` is a tracing hook without effect on the window; it is omitted.
-/

namespace PdcTouch

/-- Modelled from the spec: the macros `OK` and `ERR` come from `curses.h`,
which is not among the sources.  The spec gives every mutating operation a
status result with exactly these two outcomes. -/
inductive Status where
  | OK
  | ERR
deriving DecidableEq, Repr

/-- Modelled from the spec: the macro `_NO_CHANGE` comes from `curspriv.h`,
which is not among the sources.  The spec describes it as an out-of-band
sentinel, distinct from every valid column index; it is taken to be `-1`. -/
def _NO_CHANGE : Int := -1

/-- The fields of `WINDOW` that `pdc_touch.c` uses: `_maxy` (height),
`_maxx` (width) and the two per-line bound arrays. -/
structure WINDOW where
  _maxy : Int
  _maxx : Int
  _firstch : List Int
  _lastch : List Int
deriving DecidableEq, Repr

/-- The data-model invariant of a window: both bound arrays have exactly
`_maxy` entries (so `_maxy` is not negative). -/
def WINDOW.wf (w : WINDOW) : Prop :=
  (w._firstch.length : Int) = w._maxy ∧ (w._lastch.length : Int) = w._maxy

instance (w : WINDOW) : Decidable w.wf := by
  unfold WINDOW.wf
  infer_instance

/-- The read `a[i]` of a C array: `none` when `i` is outside the array. -/
def load (a : List Int) (i : Int) : Option Int :=
  if 0 ≤ i then a[i.toNat]? else none

/-- The write `a[i] = v` of a C array: `none` when `i` is outside the
array. -/
def store (a : List Int) (i : Int) (v : Int) : Option (List Int) :=
  if 0 ≤ i ∧ i < a.length then some (a.set i.toNat v) else none

/-- The loop `for (i = lo; ...; i++) body`, run for a given number of
iterations starting at `i`; it stops with `none` as soon as the body does. -/
def forLoop (body : Int → WINDOW → Option WINDOW) : Nat → Int → WINDOW → Option WINDOW
  | 0, _, w => some w
  | k + 1, i, w => (body i w).bind (forLoop body k (i + 1))

/-- The loop body `win->_firstch[i] = 0; win->_lastch[i] = win->_maxx - 1;`. -/
def touchRow (i : Int) (w : WINDOW) : Option WINDOW :=
  (store w._firstch i 0).bind fun f =>
  (store w._lastch i (w._maxx - 1)).bind fun l =>
  some ⟨w._maxy, w._maxx, f, l⟩

/-- The loop body
`win->_firstch[i] = _NO_CHANGE; win->_lastch[i] = _NO_CHANGE;`. -/
def untouchRow (i : Int) (w : WINDOW) : Option WINDOW :=
  (store w._firstch i _NO_CHANGE).bind fun f =>
  (store w._lastch i _NO_CHANGE).bind fun l =>
  some ⟨w._maxy, w._maxx, f, l⟩

/-- The function `touchwin` (lines 83-101). -/
def touchwin (win : Option WINDOW) : Option (Status × Option WINDOW) :=
  match win with
  | none => some (Status.ERR, none)
  | some w =>
    (forLoop touchRow (w._maxy - 0).toNat 0 w).map fun r => (Status.OK, some r)

/-- The function `touchline` (lines 103-122). -/
def touchline (win : Option WINDOW) (start count : Int) :
    Option (Status × Option WINDOW) :=
  match win with
  | none => some (Status.ERR, none)
  | some w =>
    if start > w._maxy ∨ start + count > w._maxy then some (Status.ERR, some w)
    else
      (forLoop touchRow (start + count - start).toNat start w).map
        fun r => (Status.OK, some r)

/-- The function `untouchwin` (lines 124-142). -/
def untouchwin (win : Option WINDOW) : Option (Status × Option WINDOW) :=
  match win with
  | none => some (Status.ERR, none)
  | some w =>
    (forLoop untouchRow (w._maxy - 0).toNat 0 w).map fun r => (Status.OK, some r)

/-- The loop body of `wtouchln`: the branch on `changed` (lines 158-167). -/
def wtouchlnRow (changed : Int) (i : Int) (w : WINDOW) : Option WINDOW :=
  if changed ≠ 0 then touchRow i w else untouchRow i w

/-- The function `wtouchln` (lines 144-171). -/
def wtouchln (win : Option WINDOW) (y n changed : Int) :
    Option (Status × Option WINDOW) :=
  match win with
  | none => some (Status.ERR, none)
  | some w =>
    if y > w._maxy ∨ y + n > w._maxy then some (Status.ERR, some w)
    else
      (forLoop (wtouchlnRow changed) (y + n - y).toNat y w).map
        fun r => (Status.OK, some r)

/-- The function `is_linetouched` (lines 173-183). -/
def is_linetouched (win : Option WINDOW) (line : Int) : Option Bool :=
  match win with
  | none => some false
  | some w =>
    if line > w._maxy ∨ line < 0 then some false
    else (load w._firstch line).map fun v => decide (v ≠ _NO_CHANGE)

/-- The loop of `is_wintouched` (lines 193-199), run for a given number of
iterations starting at row `i`: `some true` at the first row whose
`_firstch` differs from `_NO_CHANGE`, `some false` when the rows run out. -/
def is_wintouchedLoop (w : WINDOW) : Nat → Int → Option Bool
  | 0, _ => some false
  | k + 1, i =>
    (load w._firstch i).bind fun v =>
      if v ≠ _NO_CHANGE then some true else is_wintouchedLoop w k (i + 1)

/-- The function `is_wintouched` (lines 185-203). -/
def is_wintouched (win : Option WINDOW) : Option Bool :=
  match win with
  | none => some false
  | some w => is_wintouchedLoop w (w._maxy - 0).toNat 0

/-- A window of 5 rows and 10 columns, used in the concrete evaluations:
row 0 clean, row 1 dirty in columns 2..4, row 2 clean, row 3 fully dirty,
row 4 clean. -/
def win5 : WINDOW := ⟨5, 10, [-1, 2, -1, 0, -1], [-1, 4, -1, 9, -1]⟩

/-- A window of 5 rows and 10 columns with every row clean. -/
def clean5 : WINDOW := ⟨5, 10, [-1, -1, -1, -1, -1], [-1, -1, -1, -1, -1]⟩

/-- A window without rows. -/
def win0 : WINDOW := ⟨0, 10, [], []⟩

/-- The common shape of the loop bodies, used in the proofs: store `fv` in
`_firstch[i]` and `lv` in `_lastch[i]`.  `touchRow` and `untouchRow` are the
instances at `(0, _maxx - 1)` and `(_NO_CHANGE, _NO_CHANGE)`. -/
def writeRow (fv lv : Int) (i : Int) (w : WINDOW) : Option WINDOW :=
  (store w._firstch i fv).bind fun f =>
  (store w._lastch i lv).bind fun l =>
  some ⟨w._maxy, w._maxx, f, l⟩

/-- The Clean shape of a row: both bounds hold `_NO_CHANGE`. -/
def rowClean (f l : Int) : Prop :=
  f = _NO_CHANGE ∧ l = _NO_CHANGE

/-- The Dirty shape of a row of a window of the given width:
`0 <= first <= last < width`. -/
def rowDirty (width f l : Int) : Prop :=
  0 ≤ f ∧ f ≤ l ∧ l < width

/-- The row-state invariant of a window: every row of `[0, _maxy)` is Clean
or Dirty. -/
def WINDOW.rowsOK (w : WINDOW) : Prop :=
  ∀ i : Int, 0 ≤ i → i < w._maxy →
    ∃ f l, load w._firstch i = some f ∧ load w._lastch i = some l ∧
      (rowClean f l ∨ rowDirty w._maxx f l)

/-- A window of one clean row and width 0. -/
def narrow1 : WINDOW := ⟨1, 0, [-1], [-1]⟩

/-- The 5-row, 10-column window with every row fully dirty. -/
def full5 : WINDOW := ⟨5, 10, [0, 0, 0, 0, 0], [9, 9, 9, 9, 9]⟩

/-- The window `full5` after rows 1 and 2 have been marked clean. -/
def scenario5 : WINDOW := ⟨5, 10, [0, -1, -1, 0, 0], [9, -1, -1, 9, 9]⟩

theorem touchRow_eq (i : Int) (w : WINDOW) :
    touchRow i w = writeRow 0 (w._maxx - 1) i w := rfl

theorem untouchRow_eq (i : Int) (w : WINDOW) :
    untouchRow i w = writeRow _NO_CHANGE _NO_CHANGE i w := rfl

theorem load_set (a : List Int) (i j v : Int) (hi : 0 ≤ i) (hl : i < a.length) :
    load (a.set i.toNat v) j = if j = i then some v else load a j := by
  unfold load
  by_cases hj : 0 ≤ j
  · simp only [hj, if_true]
    rw [List.getElem?_set]
    by_cases hji : j = i
    · subst hji
      have : j.toNat < a.length := by omega
      simp [this]
    · have : ¬ i.toNat = j.toNat := by omega
      simp [this, hji]
  · have : ¬ j = i := by omega
    simp [hj, this]

theorem writeRow_some (fv lv i : Int) (w : WINDOW) (hi : 0 ≤ i)
    (h1 : i < w._firstch.length) (h2 : i < w._lastch.length) :
    writeRow fv lv i w =
      some ⟨w._maxy, w._maxx, w._firstch.set i.toNat fv, w._lastch.set i.toNat lv⟩ := by
  simp [writeRow, store, hi, h1, h2]

theorem ite_range_step (lo j : Int) (k : Nat) (v x : Option Int) :
    (if lo + 1 ≤ j ∧ j < lo + 1 + (k : Int) then v else if j = lo then v else x) =
      if lo ≤ j ∧ j < lo + ((k + 1 : Nat) : Int) then v else x := by
  by_cases c1 : lo + 1 ≤ j ∧ j < lo + 1 + (k : Int)
  · have c : lo ≤ j ∧ j < lo + ((k + 1 : Nat) : Int) := by omega
    rw [if_pos c1, if_pos c]
  · by_cases c2 : j = lo
    · have c : lo ≤ j ∧ j < lo + ((k + 1 : Nat) : Int) := by omega
      rw [if_neg c1, if_pos c2, if_pos c]
    · have c : ¬ (lo ≤ j ∧ j < lo + ((k + 1 : Nat) : Int)) := by omega
      rw [if_neg c1, if_neg c2, if_neg c]

theorem forLoop_rows (body : Int → WINDOW → Option WINDOW) (fv lv mx : Int)
    (hbody : ∀ i w, w._maxx = mx → body i w = writeRow fv lv i w) :
    ∀ (k : Nat) (lo : Int) (w : WINDOW), w._maxx = mx → 0 ≤ lo →
      lo + k ≤ w._firstch.length → lo + k ≤ w._lastch.length →
      ∃ r, forLoop body k lo w = some r ∧ r._maxy = w._maxy ∧ r._maxx = w._maxx ∧
        r._firstch.length = w._firstch.length ∧ r._lastch.length = w._lastch.length ∧
        (∀ j : Int, load r._firstch j =
          if lo ≤ j ∧ j < lo + k then some fv else load w._firstch j) ∧
        (∀ j : Int, load r._lastch j =
          if lo ≤ j ∧ j < lo + k then some lv else load w._lastch j) := by
  intro k
  induction k with
  | zero =>
    intro lo w _ _ _ _
    refine ⟨w, rfl, rfl, rfl, rfl, rfl, ?_, ?_⟩ <;>
    · intro j
      have c : ¬ (lo ≤ j ∧ j < lo + ((0 : Nat) : Int)) := by omega
      rw [if_neg c]
  | succ k ih =>
    intro lo w hmx hlo h1 h2
    have hw := writeRow_some fv lv lo w hlo (by omega) (by omega)
    obtain ⟨r, hr, hy, hx, hf, hl, hfj, hlj⟩ :=
      ih (lo + 1) ⟨w._maxy, w._maxx, w._firstch.set lo.toNat fv, w._lastch.set lo.toNat lv⟩
        hmx (by omega) (by simp only [List.length_set]; omega)
        (by simp only [List.length_set]; omega)
    refine ⟨r, ?_, hy, hx, ?_, ?_, ?_, ?_⟩
    · simp only [forLoop, hbody lo w hmx, hw, Option.some_bind, hr]
    · simpa using hf
    · simpa using hl
    · intro j
      rw [hfj j, load_set _ _ _ _ hlo (by omega)]
      exact ite_range_step lo j k (some fv) (load w._firstch j)
    · intro j
      rw [hlj j, load_set _ _ _ _ hlo (by omega)]
      exact ite_range_step lo j k (some lv) (load w._lastch j)

theorem wtouchlnRow_eq (changed mx : Int) (i : Int) (w : WINDOW) (h : w._maxx = mx) :
    wtouchlnRow changed i w =
      writeRow (if changed ≠ 0 then 0 else _NO_CHANGE)
        (if changed ≠ 0 then mx - 1 else _NO_CHANGE) i w := by
  unfold wtouchlnRow
  by_cases c : changed ≠ 0
  · rw [if_pos c, if_pos c, if_pos c, touchRow_eq, h]
  · rw [if_neg c, if_neg c, if_neg c, untouchRow_eq]

/-- What an accepted `wtouchln` call does on a well-formed window: it
returns `OK`, keeps the geometry and the array sizes, writes the rows of
`[y, y + n)` and keeps every other entry. -/
theorem wtouchln_accepted (w : WINDOW) (hw : w.wf) (y n changed : Int)
    (hy : 0 ≤ y) (hn : 0 ≤ n) (hyn : y + n ≤ w._maxy) :
    ∃ r, wtouchln (some w) y n changed = some (Status.OK, some r) ∧
      r._maxy = w._maxy ∧ r._maxx = w._maxx ∧
      r._firstch.length = w._firstch.length ∧ r._lastch.length = w._lastch.length ∧
      (∀ j : Int, load r._firstch j =
        if y ≤ j ∧ j < y + n then some (if changed ≠ 0 then 0 else _NO_CHANGE)
        else load w._firstch j) ∧
      (∀ j : Int, load r._lastch j =
        if y ≤ j ∧ j < y + n then some (if changed ≠ 0 then w._maxx - 1 else _NO_CHANGE)
        else load w._lastch j) := by
  obtain ⟨h1, h2⟩ := hw
  have hk : (((y + n - y).toNat : Nat) : Int) = n := by omega
  obtain ⟨r, hr, hmy, hmx, hf, hl, hfj, hlj⟩ :=
    forLoop_rows (wtouchlnRow changed) (if changed ≠ 0 then 0 else _NO_CHANGE)
      (if changed ≠ 0 then w._maxx - 1 else _NO_CHANGE) w._maxx
      (fun i v hv => wtouchlnRow_eq changed w._maxx i v hv)
      (y + n - y).toNat y w rfl hy (by omega) (by omega)
  rw [hk] at hfj hlj
  refine ⟨r, ?_, hmy, hmx, hf, hl, hfj, hlj⟩
  have c : ¬ (y > w._maxy ∨ y + n > w._maxy) := by omega
  simp only [wtouchln, if_neg c, hr, Option.map_some']

/-- What an accepted `touchline` call does on a well-formed window. -/
theorem touchline_accepted (w : WINDOW) (hw : w.wf) (start count : Int)
    (hs : 0 ≤ start) (hc : 0 ≤ count) (hsc : start + count ≤ w._maxy) :
    ∃ r, touchline (some w) start count = some (Status.OK, some r) ∧
      r._maxy = w._maxy ∧ r._maxx = w._maxx ∧
      r._firstch.length = w._firstch.length ∧ r._lastch.length = w._lastch.length ∧
      (∀ j : Int, load r._firstch j =
        if start ≤ j ∧ j < start + count then some 0 else load w._firstch j) ∧
      (∀ j : Int, load r._lastch j =
        if start ≤ j ∧ j < start + count then some (w._maxx - 1) else load w._lastch j) := by
  obtain ⟨h1, h2⟩ := hw
  have hk : (((start + count - start).toNat : Nat) : Int) = count := by omega
  obtain ⟨r, hr, hmy, hmx, hf, hl, hfj, hlj⟩ :=
    forLoop_rows touchRow 0 (w._maxx - 1) w._maxx
      (fun i v hv => by rw [touchRow_eq, hv])
      (start + count - start).toNat start w rfl hs (by omega) (by omega)
  rw [hk] at hfj hlj
  refine ⟨r, ?_, hmy, hmx, hf, hl, hfj, hlj⟩
  have c : ¬ (start > w._maxy ∨ start + count > w._maxy) := by omega
  simp only [touchline, if_neg c, hr, Option.map_some']

/-- What `touchwin` does on a well-formed window. -/
theorem touchwin_result (w : WINDOW) (hw : w.wf) :
    ∃ r, touchwin (some w) = some (Status.OK, some r) ∧
      r._maxy = w._maxy ∧ r._maxx = w._maxx ∧
      r._firstch.length = w._firstch.length ∧ r._lastch.length = w._lastch.length ∧
      (∀ j : Int, load r._firstch j =
        if 0 ≤ j ∧ j < w._maxy then some 0 else load w._firstch j) ∧
      (∀ j : Int, load r._lastch j =
        if 0 ≤ j ∧ j < w._maxy then some (w._maxx - 1) else load w._lastch j) := by
  obtain ⟨h1, h2⟩ := hw
  have hk : (((w._maxy - 0).toNat : Nat) : Int) = w._maxy := by omega
  obtain ⟨r, hr, hmy, hmx, hf, hl, hfj, hlj⟩ :=
    forLoop_rows touchRow 0 (w._maxx - 1) w._maxx
      (fun i v hv => by rw [touchRow_eq, hv])
      (w._maxy - 0).toNat 0 w rfl (le_refl 0) (by omega) (by omega)
  rw [hk] at hfj hlj
  simp only [zero_add] at hfj hlj
  refine ⟨r, ?_, hmy, hmx, hf, hl, hfj, hlj⟩
  simp only [touchwin, hr, Option.map_some']

/-- What `untouchwin` does on a well-formed window. -/
theorem untouchwin_result (w : WINDOW) (hw : w.wf) :
    ∃ r, untouchwin (some w) = some (Status.OK, some r) ∧
      r._maxy = w._maxy ∧ r._maxx = w._maxx ∧
      r._firstch.length = w._firstch.length ∧ r._lastch.length = w._lastch.length ∧
      (∀ j : Int, load r._firstch j =
        if 0 ≤ j ∧ j < w._maxy then some _NO_CHANGE else load w._firstch j) ∧
      (∀ j : Int, load r._lastch j =
        if 0 ≤ j ∧ j < w._maxy then some _NO_CHANGE else load w._lastch j) := by
  obtain ⟨h1, h2⟩ := hw
  have hk : (((w._maxy - 0).toNat : Nat) : Int) = w._maxy := by omega
  obtain ⟨r, hr, hmy, hmx, hf, hl, hfj, hlj⟩ :=
    forLoop_rows untouchRow _NO_CHANGE _NO_CHANGE w._maxx
      (fun i v _ => untouchRow_eq i v)
      (w._maxy - 0).toNat 0 w rfl (le_refl 0) (by omega) (by omega)
  rw [hk] at hfj hlj
  simp only [zero_add] at hfj hlj
  refine ⟨r, ?_, hmy, hmx, hf, hl, hfj, hlj⟩
  simp only [untouchwin, hr, Option.map_some']

/-- C1: on every non-null window whose bound arrays have `_maxy` entries
(so the height is not negative) `touchwin` returns `OK`, and in the window it
leaves every row `i` of `[0, height)` has `_firstch[i] = 0` and
`_lastch[i] = width - 1`, with height and width unchanged. -/
theorem touchwin_marks_every_row (w : WINDOW) (hw : w.wf) :
    ∃ r, touchwin (some w) = some (Status.OK, some r) ∧
      r._maxy = w._maxy ∧ r._maxx = w._maxx ∧
      ∀ i : Int, 0 ≤ i → i < w._maxy →
        load r._firstch i = some 0 ∧ load r._lastch i = some (w._maxx - 1) := by
  obtain ⟨r, hr, hmy, hmx, _, _, hfj, hlj⟩ := touchwin_result w hw
  refine ⟨r, hr, hmy, hmx, ?_⟩
  intro i h0 h1
  exact ⟨by rw [hfj i, if_pos ⟨h0, h1⟩], by rw [hlj i, if_pos ⟨h0, h1⟩]⟩

theorem touchwin_marks_every_row_witness :
    win5.wf ∧ ∃ r, touchwin (some win5) = some (Status.OK, some r) ∧
      r._maxy = 5 ∧ r._maxx = 10 ∧
      load r._firstch 1 = some 0 ∧ load r._lastch 1 = some 9 :=
  ⟨by decide,
    let ⟨r, hr, hy, hx, h⟩ := touchwin_marks_every_row win5 (by decide)
    ⟨r, hr, hy, hx, h 1 (by decide) (by decide)⟩⟩

theorem touchline_rejected (w : WINDOW) (start count : Int)
    (h : start > w._maxy ∨ start + count > w._maxy) :
    touchline (some w) start count = some (Status.ERR, some w) := by
  simp only [touchline, if_pos h]

theorem wtouchln_rejected (w : WINDOW) (y n changed : Int)
    (h : y > w._maxy ∨ y + n > w._maxy) :
    wtouchln (some w) y n changed = some (Status.ERR, some w) := by
  simp only [wtouchln, if_pos h]

/-- C2: on every non-null window whose bound arrays have `_maxy` entries, and
for all `start >= 0` and `count >= 0`, `touchline` returns `OK` when
`start <= height` and `start + count <= height`, and `ERR` otherwise; the
same holds of `wtouchln` for every value of `changed`.  On a window of 5 rows
`touchline(win, 5, 0)` returns `OK` and leaves the window as it was, and
`touchline(win, 5, 1)` returns `ERR`. -/
theorem touchline_wtouchln_status (w : WINDOW) (hw : w.wf) (start count changed : Int)
    (hs : 0 ≤ start) (hc : 0 ≤ count) :
    (touchline (some w) start count).map Prod.fst =
        some (if start ≤ w._maxy ∧ start + count ≤ w._maxy then Status.OK else Status.ERR) ∧
    (wtouchln (some w) start count changed).map Prod.fst =
        some (if start ≤ w._maxy ∧ start + count ≤ w._maxy then Status.OK else Status.ERR) ∧
    (w._maxy = 5 →
      touchline (some w) 5 0 = some (Status.OK, some w) ∧
      touchline (some w) 5 1 = some (Status.ERR, some w)) := by
  refine ⟨?_, ?_, ?_⟩
  · by_cases c : start ≤ w._maxy ∧ start + count ≤ w._maxy
    · obtain ⟨r, hr, _⟩ := touchline_accepted w hw start count hs hc c.2
      rw [hr, if_pos c]
      rfl
    · rw [touchline_rejected w start count (by omega), if_neg c]
      rfl
  · by_cases c : start ≤ w._maxy ∧ start + count ≤ w._maxy
    · obtain ⟨r, hr, _⟩ := wtouchln_accepted w hw start count changed hs hc c.2
      rw [hr, if_pos c]
      rfl
    · rw [wtouchln_rejected w start count changed (by omega), if_neg c]
      rfl
  · intro h5
    refine ⟨?_, touchline_rejected w 5 1 (by omega)⟩
    have c : ¬ ((5 : Int) > w._maxy ∨ (5 : Int) + 0 > w._maxy) := by omega
    simp only [touchline, if_neg c]
    rfl

theorem touchline_wtouchln_status_witness :
    win5.wf ∧ (0 : Int) ≤ 2 ∧ (0 : Int) ≤ 3 ∧
    (touchline (some win5) 2 3).map Prod.fst = some Status.OK ∧
    (wtouchln (some win5) 2 3 0).map Prod.fst = some Status.OK ∧
    touchline (some win5) 5 0 = some (Status.OK, some win5) ∧
    touchline (some win5) 5 1 = some (Status.ERR, some win5) :=
  have h := touchline_wtouchln_status win5 (by decide) 2 3 0 (by decide) (by decide)
  ⟨by decide, by decide, by decide, h.1, h.2.1, (h.2.2 rfl).1, (h.2.2 rfl).2⟩

/-- C3: on every non-null window whose bound arrays have `_maxy` entries and
for every accepted range (`y >= 0`, `n >= 0`, `y + n <= height`), `wtouchln`
returns `OK` and leaves every row `i` of `[y, y + n)` with `_firstch[i] = 0`,
`_lastch[i] = width - 1` when `changed != 0`, and with
`_firstch[i] = _lastch[i] = _NO_CHANGE` when `changed == 0`; `touchline`
returns `OK` and leaves every row of `[y, y + n)` with `_firstch[i] = 0`,
`_lastch[i] = width - 1`; whatever the rows held before. -/
theorem wtouchln_touchline_rows_in_range (w : WINDOW) (hw : w.wf) (y n changed : Int)
    (hy : 0 ≤ y) (hn : 0 ≤ n) (hyn : y + n ≤ w._maxy) :
    (∃ r, wtouchln (some w) y n changed = some (Status.OK, some r) ∧
      ∀ i : Int, y ≤ i → i < y + n →
        (changed ≠ 0 →
          load r._firstch i = some 0 ∧ load r._lastch i = some (w._maxx - 1)) ∧
        (changed = 0 →
          load r._firstch i = some _NO_CHANGE ∧ load r._lastch i = some _NO_CHANGE)) ∧
    (∃ r, touchline (some w) y n = some (Status.OK, some r) ∧
      ∀ i : Int, y ≤ i → i < y + n →
        load r._firstch i = some 0 ∧ load r._lastch i = some (w._maxx - 1)) := by
  constructor
  · obtain ⟨r, hr, _, _, _, _, hfj, hlj⟩ := wtouchln_accepted w hw y n changed hy hn hyn
    refine ⟨r, hr, ?_⟩
    intro i h0 h1
    constructor
    · intro c
      exact ⟨by rw [hfj i, if_pos ⟨h0, h1⟩, if_pos c],
        by rw [hlj i, if_pos ⟨h0, h1⟩, if_pos c]⟩
    · intro c
      have c0 : ¬ changed ≠ 0 := fun h => h c
      exact ⟨by rw [hfj i, if_pos ⟨h0, h1⟩, if_neg c0],
        by rw [hlj i, if_pos ⟨h0, h1⟩, if_neg c0]⟩
  · obtain ⟨r, hr, _, _, _, _, hfj, hlj⟩ := touchline_accepted w hw y n hy hn hyn
    refine ⟨r, hr, ?_⟩
    intro i h0 h1
    exact ⟨by rw [hfj i, if_pos ⟨h0, h1⟩], by rw [hlj i, if_pos ⟨h0, h1⟩]⟩

theorem wtouchln_touchline_rows_in_range_witness :
    win5.wf ∧ (0 : Int) ≤ 1 ∧ (0 : Int) ≤ 2 ∧ (1 : Int) + 2 ≤ win5._maxy ∧
    (∃ r, wtouchln (some win5) 1 2 0 = some (Status.OK, some r) ∧
      load r._firstch 1 = some _NO_CHANGE ∧ load r._lastch 1 = some _NO_CHANGE) ∧
    (∃ r, wtouchln (some win5) 1 2 1 = some (Status.OK, some r) ∧
      load r._firstch 1 = some 0 ∧ load r._lastch 1 = some 9) ∧
    (∃ r, touchline (some win5) 1 2 = some (Status.OK, some r) ∧
      load r._firstch 2 = some 0 ∧ load r._lastch 2 = some 9) :=
  ⟨by decide, by decide, by decide, by decide,
    let ⟨r, hr, h⟩ := (wtouchln_touchline_rows_in_range win5 (by decide) 1 2 0 (by decide)
      (by decide) (by decide)).1
    ⟨r, hr, (h 1 (by decide) (by decide)).2 rfl⟩,
    let ⟨r, hr, h⟩ := (wtouchln_touchline_rows_in_range win5 (by decide) 1 2 1 (by decide)
      (by decide) (by decide)).1
    ⟨r, hr, (h 1 (by decide) (by decide)).1 (by decide)⟩,
    let ⟨r, hr, h⟩ := (wtouchln_touchline_rows_in_range win5 (by decide) 1 2 1 (by decide)
      (by decide) (by decide)).2
    ⟨r, hr, h 2 (by decide) (by decide)⟩⟩

/-- C4: on every non-null window whose bound arrays have `_maxy` entries and
for every accepted range (`y >= 0`, `n >= 0`, `y + n <= height`), `wtouchln`
and `touchline` leave `_firstch[i]` and `_lastch[i]` as they were for every
row `i` of `[0, height)` outside `[y, y + n)`, and leave height and width as
they were. -/
theorem wtouchln_touchline_frame (w : WINDOW) (hw : w.wf) (y n changed : Int)
    (hy : 0 ≤ y) (hn : 0 ≤ n) (hyn : y + n ≤ w._maxy) :
    (∃ r, wtouchln (some w) y n changed = some (Status.OK, some r) ∧
      r._maxy = w._maxy ∧ r._maxx = w._maxx ∧
      ∀ i : Int, 0 ≤ i → i < w._maxy → ¬ (y ≤ i ∧ i < y + n) →
        load r._firstch i = load w._firstch i ∧ load r._lastch i = load w._lastch i) ∧
    (∃ r, touchline (some w) y n = some (Status.OK, some r) ∧
      r._maxy = w._maxy ∧ r._maxx = w._maxx ∧
      ∀ i : Int, 0 ≤ i → i < w._maxy → ¬ (y ≤ i ∧ i < y + n) →
        load r._firstch i = load w._firstch i ∧ load r._lastch i = load w._lastch i) := by
  constructor
  · obtain ⟨r, hr, hmy, hmx, _, _, hfj, hlj⟩ := wtouchln_accepted w hw y n changed hy hn hyn
    refine ⟨r, hr, hmy, hmx, ?_⟩
    intro i _ _ hout
    exact ⟨by rw [hfj i, if_neg hout], by rw [hlj i, if_neg hout]⟩
  · obtain ⟨r, hr, hmy, hmx, _, _, hfj, hlj⟩ := touchline_accepted w hw y n hy hn hyn
    refine ⟨r, hr, hmy, hmx, ?_⟩
    intro i _ _ hout
    exact ⟨by rw [hfj i, if_neg hout], by rw [hlj i, if_neg hout]⟩

theorem wtouchln_touchline_frame_witness :
    win5.wf ∧ (0 : Int) ≤ 1 ∧ (0 : Int) ≤ 2 ∧ (1 : Int) + 2 ≤ win5._maxy ∧
    (∃ r, wtouchln (some win5) 1 2 0 = some (Status.OK, some r) ∧
      r._maxy = 5 ∧ r._maxx = 10 ∧
      load r._firstch 3 = some 0 ∧ load r._lastch 3 = some 9) ∧
    (∃ r, touchline (some win5) 1 2 = some (Status.OK, some r) ∧
      r._maxy = 5 ∧ r._maxx = 10 ∧
      load r._firstch 4 = some (-1) ∧ load r._lastch 4 = some (-1)) :=
  ⟨by decide, by decide, by decide, by decide,
    let ⟨r, hr, hy, hx, h⟩ := (wtouchln_touchline_frame win5 (by decide) 1 2 0 (by decide)
      (by decide) (by decide)).1
    ⟨r, hr, hy, hx, h 3 (by decide) (by decide) (by decide)⟩,
    let ⟨r, hr, hy, hx, h⟩ := (wtouchln_touchline_frame win5 (by decide) 1 2 0 (by decide)
      (by decide) (by decide)).2
    ⟨r, hr, hy, hx, h 4 (by decide) (by decide) (by decide)⟩⟩

theorem load_some (a : List Int) (i : Int) (h0 : 0 ≤ i) (h1 : i < a.length) :
    ∃ v, load a i = some v := by
  have h : i.toNat < a.length := by omega
  exact ⟨a[i.toNat], by simp only [load, if_pos h0, List.getElem?_eq_getElem h]⟩

theorem is_wintouchedLoop_spec (w : WINDOW) :
    ∀ (k : Nat) (i : Int), 0 ≤ i → i + k ≤ w._firstch.length →
      ∃ b, is_wintouchedLoop w k i = some b ∧
        (b = true ↔ ∃ j v, i ≤ j ∧ j < i + k ∧ load w._firstch j = some v ∧
          v ≠ _NO_CHANGE) := by
  intro k
  induction k with
  | zero =>
    intro i _ _
    refine ⟨false, rfl, ?_⟩
    constructor
    · intro h
      cases h
    · rintro ⟨j, _, h1, h2, _⟩
      omega
  | succ k ih =>
    intro i h0 h1
    obtain ⟨v, hv⟩ := load_some w._firstch i h0 (by omega)
    by_cases c : v ≠ _NO_CHANGE
    · refine ⟨true, ?_, ?_⟩
      · simp only [is_wintouchedLoop, hv, Option.some_bind, if_pos c]
      · constructor
        · intro _
          exact ⟨i, v, le_refl i, by omega, hv, c⟩
        · intro _
          rfl
    · obtain ⟨b, hb, hiff⟩ := ih (i + 1) (by omega) (by omega)
      refine ⟨b, ?_, ?_⟩
      · simp only [is_wintouchedLoop, hv, Option.some_bind, if_neg c, hb]
      · constructor
        · intro h
          obtain ⟨j, u, h2, h3, h4, h5⟩ := hiff.1 h
          exact ⟨j, u, by omega, by omega, h4, h5⟩
        · rintro ⟨j, u, h2, h3, h4, h5⟩
          apply hiff.2
          by_cases e : j = i
          · subst e
            rw [hv] at h4
            cases h4
            exact absurd h5 c
          · exact ⟨j, u, by omega, by omega, h4, h5⟩

/-- What `is_wintouched` computes on a well-formed window. -/
theorem is_wintouched_spec (w : WINDOW) (hw : w.wf) :
    ∃ b, is_wintouched (some w) = some b ∧
      (b = true ↔ ∃ i v, 0 ≤ i ∧ i < w._maxy ∧ load w._firstch i = some v ∧
        v ≠ _NO_CHANGE) := by
  obtain ⟨h1, _⟩ := hw
  have hk : (((w._maxy - 0).toNat : Nat) : Int) = w._maxy := by omega
  obtain ⟨b, hb, hiff⟩ := is_wintouchedLoop_spec w (w._maxy - 0).toNat 0 (le_refl 0) (by omega)
  rw [hk] at hiff
  simp only [zero_add] at hiff
  exact ⟨b, hb, hiff⟩

/-- What `is_linetouched` computes at a row of the window. -/
theorem is_linetouched_row (w : WINDOW) (row v : Int) (h0 : 0 ≤ row) (h1 : row < w._maxy)
    (hv : load w._firstch row = some v) :
    is_linetouched (some w) row = some (decide (v ≠ _NO_CHANGE)) := by
  have c : ¬ (row > w._maxy ∨ row < 0) := by omega
  simp only [is_linetouched, if_neg c, hv, Option.map_some']

/-- What `is_linetouched` returns below row 0 and above row `_maxy`. -/
theorem is_linetouched_outside (w : WINDOW) (row : Int) (h : row < 0 ∨ w._maxy < row) :
    is_linetouched (some w) row = some false := by
  have c : row > w._maxy ∨ row < 0 := by omega
  simp only [is_linetouched, if_pos c]

/-- C5: a negative start is not rejected.  On the 5-row window
`touchline(win, -1, 0)` and `wtouchln(win, -1, 0, 1)` return `OK` where the
claim has `ERR`, and `touchline(win, -1, 1)` and `wtouchln(win, -1, 1, 1)`
pass the range check and store to `_firstch[-1]`, outside the array. -/
theorem touchline_negative_start_accepted :
    touchline (some win5) (-1) 0 = some (Status.OK, some win5) ∧
    wtouchln (some win5) (-1) 0 1 = some (Status.OK, some win5) ∧
    touchline (some win5) (-1) 1 = none ∧
    wtouchln (some win5) (-1) 1 1 = none := by
  decide

/-- C6: whenever `touchline` or `wtouchln` returns `ERR`, for every window
(null or not) and all integer arguments, the window after the call is the
window before the call: height, width and both bound arrays are as they
were. -/
theorem err_leaves_window_unchanged (win after : Option WINDOW) (a b changed : Int) :
    (touchline win a b = some (Status.ERR, after) → after = win) ∧
    (wtouchln win a b changed = some (Status.ERR, after) → after = win) := by
  constructor
  · intro h
    cases win with
    | none =>
      simp only [touchline, Option.some.injEq, Prod.mk.injEq, true_and] at h
      exact h.symm
    | some w =>
      by_cases c : a > w._maxy ∨ a + b > w._maxy
      · rw [touchline_rejected w a b c] at h
        simp only [Option.some.injEq, Prod.mk.injEq, true_and] at h
        exact h.symm
      · simp only [touchline, if_neg c] at h
        cases hl : forLoop touchRow (a + b - a).toNat a w with
        | none => rw [hl] at h; cases h
        | some r => rw [hl] at h; cases h
  · intro h
    cases win with
    | none =>
      simp only [wtouchln, Option.some.injEq, Prod.mk.injEq, true_and] at h
      exact h.symm
    | some w =>
      by_cases c : a > w._maxy ∨ a + b > w._maxy
      · rw [wtouchln_rejected w a b changed c] at h
        simp only [Option.some.injEq, Prod.mk.injEq, true_and] at h
        exact h.symm
      · simp only [wtouchln, if_neg c] at h
        cases hl : forLoop (wtouchlnRow changed) (a + b - a).toNat a w with
        | none => rw [hl] at h; cases h
        | some r => rw [hl] at h; cases h

theorem err_leaves_window_unchanged_witness :
    touchline (some win5) 3 4 = some (Status.ERR, some win5) ∧
    wtouchln (some win5) 3 4 0 = some (Status.ERR, some win5) ∧
    some win5 = some win5 ∧ some win5 = some win5 :=
  ⟨by decide, by decide,
    (err_leaves_window_unchanged (some win5) (some win5) 3 4 0).1 (by decide),
    (err_leaves_window_unchanged (some win5) (some win5) 3 4 0).2 (by decide)⟩

/-- C7: on every non-null window whose bound arrays have `_maxy` entries
`untouchwin` returns `OK` and leaves `_firstch[i] = _lastch[i] = _NO_CHANGE`
for every row `i` of `[0, height)`; afterwards `is_wintouched` is false and
`is_linetouched` is false for every row of the window, and also for every
index below 0 and above the height. -/
theorem untouchwin_cleans_every_row (w : WINDOW) (hw : w.wf) :
    ∃ r, untouchwin (some w) = some (Status.OK, some r) ∧
      (∀ i : Int, 0 ≤ i → i < w._maxy →
        load r._firstch i = some _NO_CHANGE ∧ load r._lastch i = some _NO_CHANGE) ∧
      is_wintouched (some r) = some false ∧
      (∀ row : Int, 0 ≤ row → row < w._maxy → is_linetouched (some r) row = some false) ∧
      (∀ row : Int, row < 0 ∨ w._maxy < row → is_linetouched (some r) row = some false) := by
  obtain ⟨r, hr, hmy, _, hf, hl, hfj, hlj⟩ := untouchwin_result w hw
  have hclean : ∀ i : Int, 0 ≤ i → i < w._maxy → load r._firstch i = some _NO_CHANGE :=
    fun i h0 h1 => by rw [hfj i, if_pos ⟨h0, h1⟩]
  have hrw : r.wf := by
    obtain ⟨h1, h2⟩ := hw
    exact ⟨by rw [hf, hmy]; exact h1, by rw [hl, hmy]; exact h2⟩
  refine ⟨r, hr, ?_, ?_, ?_, ?_⟩
  · intro i h0 h1
    exact ⟨hclean i h0 h1, by rw [hlj i, if_pos ⟨h0, h1⟩]⟩
  · obtain ⟨b, hb, hiff⟩ := is_wintouched_spec r hrw
    cases b with
    | false => exact hb
    | true =>
      obtain ⟨i, v, h0, h1, h2, h3⟩ := hiff.1 rfl
      rw [hmy] at h1
      rw [hclean i h0 h1] at h2
      cases h2
      exact absurd rfl h3
  · intro row h0 h1
    rw [is_linetouched_row r row _NO_CHANGE h0 (by rw [hmy]; exact h1) (hclean row h0 h1)]
    rfl
  · intro row h
    exact is_linetouched_outside r row (by rw [hmy]; exact h)

theorem untouchwin_cleans_every_row_witness :
    win5.wf ∧ ∃ r, untouchwin (some win5) = some (Status.OK, some r) ∧
      (load r._firstch 3 = some _NO_CHANGE ∧ load r._lastch 3 = some _NO_CHANGE) ∧
      is_wintouched (some r) = some false ∧
      is_linetouched (some r) 3 = some false ∧
      is_linetouched (some r) (-1) = some false ∧
      is_linetouched (some r) 6 = some false :=
  ⟨by decide,
    let ⟨r, hr, h1, h2, h3, h4⟩ := untouchwin_cleans_every_row win5 (by decide)
    ⟨r, hr, h1 3 (by decide) (by decide), h2, h3 3 (by decide) (by decide),
      h4 (-1) (by decide), h4 6 (by decide)⟩⟩

/-- C8, as stated, fails on a window of height 0: `touchwin` returns `OK` and
`is_wintouched` is false afterwards, there being no row to find dirty. -/
theorem touchwin_height_zero_not_touched :
    win0.wf ∧ 0 ≤ win0._maxy ∧ 0 ≤ win0._maxx ∧
    touchwin (some win0) = some (Status.OK, some win0) ∧
    is_wintouched (some win0) = some false := by
  decide

/-- C8, amended: on every non-null window whose bound arrays have `_maxy`
entries and whose height is at least 1 (whatever the width), after `touchwin`
`is_wintouched` is true, and `is_linetouched` is true for every row of
`[0, height)`; the second part also holds at height 0. -/
theorem touchwin_then_touched (w : WINDOW) (hw : w.wf) :
    ∃ r, touchwin (some w) = some (Status.OK, some r) ∧
      (0 < w._maxy → is_wintouched (some r) = some true) ∧
      (∀ row : Int, 0 ≤ row → row < w._maxy → is_linetouched (some r) row = some true) := by
  obtain ⟨r, hr, hmy, _, hf, hl, hfj, _⟩ := touchwin_result w hw
  have hdirty : ∀ i : Int, 0 ≤ i → i < w._maxy → load r._firstch i = some 0 :=
    fun i h0 h1 => by rw [hfj i, if_pos ⟨h0, h1⟩]
  have hrw : r.wf := by
    obtain ⟨h1, h2⟩ := hw
    exact ⟨by rw [hf, hmy]; exact h1, by rw [hl, hmy]; exact h2⟩
  refine ⟨r, hr, ?_, ?_⟩
  · intro hpos
    obtain ⟨b, hb, hiff⟩ := is_wintouched_spec r hrw
    have hb' : b = true :=
      hiff.2 ⟨0, 0, le_refl 0, by rw [hmy]; exact hpos, hdirty 0 (le_refl 0) hpos,
        by decide⟩
    rw [hb, hb']
  · intro row h0 h1
    rw [is_linetouched_row r row 0 h0 (by rw [hmy]; exact h1) (hdirty row h0 h1)]
    rfl

theorem touchwin_then_touched_witness :
    win5.wf ∧ 0 < win5._maxy ∧
    ∃ r, touchwin (some win5) = some (Status.OK, some r) ∧
      is_wintouched (some r) = some true ∧ is_linetouched (some r) 2 = some true :=
  ⟨by decide, by decide,
    let ⟨r, hr, h1, h2⟩ := touchwin_then_touched win5 (by decide)
    ⟨r, hr, h1 (by decide), h2 2 (by decide) (by decide)⟩⟩

/-- C9: at `row == height` the check `line > win->_maxy` lets the call
through.  On the 5-row window `is_linetouched(win, 5)` reads `_firstch[5]`,
one entry past the array, where the claim has it return false without a
read; the rows 4 and 6 on either side behave as claimed. -/
theorem is_linetouched_at_height_reads_past_array :
    is_linetouched (some clean5) 5 = none ∧
    is_linetouched (some clean5) 4 = some false ∧
    is_linetouched (some clean5) 6 = some false := by
  decide

/-- C10: `is_wintouched` returns false for a null window and for a window of
height 0; on a non-null window whose bound arrays have `_maxy` entries it
returns a value, which is true if and only if some row `i` of `[0, height)`
has `_firstch[i] != _NO_CHANGE`, so it returns false when every row is
clean. -/
theorem is_wintouched_iff_some_row_dirty :
    is_wintouched none = some false ∧
    (∀ w : WINDOW, w._maxy = 0 → is_wintouched (some w) = some false) ∧
    (∀ w : WINDOW, w.wf →
      (∃ b, is_wintouched (some w) = some b ∧
        (b = true ↔ ∃ i v, 0 ≤ i ∧ i < w._maxy ∧ load w._firstch i = some v ∧
          v ≠ _NO_CHANGE)) ∧
      ((∀ i : Int, 0 ≤ i → i < w._maxy → load w._firstch i = some _NO_CHANGE) →
        is_wintouched (some w) = some false)) := by
  refine ⟨rfl, ?_, ?_⟩
  · intro w h
    simp only [is_wintouched, h]
    rfl
  · intro w hw
    obtain ⟨b, hb, hiff⟩ := is_wintouched_spec w hw
    refine ⟨⟨b, hb, hiff⟩, ?_⟩
    intro hclean
    cases b with
    | false => exact hb
    | true =>
      obtain ⟨i, v, h0, h1, h2, h3⟩ := hiff.1 rfl
      rw [hclean i h0 h1] at h2
      cases h2
      exact absurd rfl h3

theorem is_wintouched_iff_some_row_dirty_witness :
    win0._maxy = 0 ∧ win5.wf ∧ clean5.wf ∧
    is_wintouched (some win0) = some false ∧
    is_wintouched (some win5) = some true ∧
    is_wintouched (some clean5) = some false :=
  ⟨by decide, by decide, by decide,
    is_wintouched_iff_some_row_dirty.2.1 win0 (by decide),
    let ⟨b, hb, hiff⟩ := (is_wintouched_iff_some_row_dirty.2.2 win5 (by decide)).1
    hb.trans (congrArg some (hiff.2 ⟨1, 2, by decide, by decide, by decide, by decide⟩)),
    (is_wintouched_iff_some_row_dirty.2.2 clean5 (by decide)).2 (fun i h0 h1 => by
      have h : i = 0 ∨ i = 1 ∨ i = 2 ∨ i = 3 ∨ i = 4 := by
        have h5 : i < 5 := h1
        omega
      rcases h with h | h | h | h | h <;> subst h <;> rfl)⟩

theorem load_natCast (a : List Int) (n : Nat) : load a (n : Int) = a[n]? := by
  simp [load]

/-- Two arrays with the same content at every index are equal. -/
theorem load_ext (a b : List Int) (h : ∀ j : Int, load a j = load b j) : a = b := by
  apply List.ext_getElem?
  intro n
  rw [← load_natCast a n, ← load_natCast b n]
  exact h n

/-- Two windows with the same geometry and the same array content are
equal. -/
theorem WINDOW.ext_load (r w : WINDOW) (hy : r._maxy = w._maxy) (hx : r._maxx = w._maxx)
    (hf : ∀ j : Int, load r._firstch j = load w._firstch j)
    (hl : ∀ j : Int, load r._lastch j = load w._lastch j) : r = w := by
  cases r
  cases w
  simp only [WINDOW.mk.injEq]
  exact ⟨hy, hx, load_ext _ _ hf, load_ext _ _ hl⟩

/-- With a count that is not positive the loop of `touchline` does not run:
a call that passes the range check returns `OK` and the window as it was. -/
theorem touchline_count_nonpos (w : WINDOW) (start count : Int) (hc : count ≤ 0)
    (hs : start ≤ w._maxy) :
    touchline (some w) start count = some (Status.OK, some w) := by
  have c : ¬ (start > w._maxy ∨ start + count > w._maxy) := by omega
  have hk : (start + count - start).toNat = 0 := by omega
  simp only [touchline, if_neg c, hk, forLoop, Option.map_some']

/-- With a count that is not positive the loop of `wtouchln` does not run. -/
theorem wtouchln_count_nonpos (w : WINDOW) (y n changed : Int) (hn : n ≤ 0)
    (hy : y ≤ w._maxy) :
    wtouchln (some w) y n changed = some (Status.OK, some w) := by
  have c : ¬ (y > w._maxy ∨ y + n > w._maxy) := by omega
  have hk : (y + n - y).toNat = 0 := by omega
  simp only [wtouchln, if_neg c, hk, forLoop, Option.map_some']

theorem wtouchlnRow_changed (changed : Int) (h : changed ≠ 0) :
    wtouchlnRow changed = touchRow := by
  funext i w
  simp only [wtouchlnRow, if_pos h]

theorem wtouchlnRow_zero : wtouchlnRow 0 = untouchRow := by
  funext i w
  simp [wtouchlnRow]

/-- C16: `touchline` is `wtouchln` with the flag set: for every window, null
or not, all integers `start` and `count` and every `changed != 0`, the two
calls have the same outcome: the same status and the same window after the
call (and the same accesses outside the arrays, if any). -/
theorem touchline_eq_wtouchln_changed (win : Option WINDOW) (start count changed : Int)
    (h : changed ≠ 0) :
    touchline win start count = wtouchln win start count changed := by
  cases win with
  | none => rfl
  | some w => simp only [touchline, wtouchln, wtouchlnRow_changed changed h]

theorem touchline_eq_wtouchln_changed_witness :
    (1 : Int) ≠ 0 ∧ touchline (some win5) 1 2 = wtouchln (some win5) 1 2 1 ∧
    wtouchln (some win5) 1 2 1 =
      some (Status.OK, some ⟨5, 10, [-1, 0, 0, 0, -1], [-1, 9, 9, 9, -1]⟩) :=
  ⟨by decide, touchline_eq_wtouchln_changed (some win5) 1 2 1 (by decide), by decide⟩

/-- C17: the whole-window operations are the full-range cases of the range
operations: on a null window `touchwin` and `touchline(win, 0, h)`, and
`untouchwin` and `wtouchln(win, 0, h, 0)`, all return `ERR`; on a non-null
window of height `_maxy >= 0`, `touchwin(win)` has the same outcome as
`touchline(win, 0, _maxy)` and `untouchwin(win)` the same outcome as
`wtouchln(win, 0, _maxy, 0)`. -/
theorem whole_window_eq_full_range :
    (∀ h : Int, touchwin none = touchline none 0 h ∧
      untouchwin none = wtouchln none 0 h 0) ∧
    (∀ w : WINDOW, 0 ≤ w._maxy →
      touchwin (some w) = touchline (some w) 0 w._maxy ∧
      untouchwin (some w) = wtouchln (some w) 0 w._maxy 0) := by
  constructor
  · intro h
    exact ⟨rfl, rfl⟩
  · intro w hw
    have c : ¬ ((0 : Int) > w._maxy ∨ 0 + w._maxy > w._maxy) := by omega
    have hk : (0 + w._maxy - 0).toNat = (w._maxy - 0).toNat := by omega
    constructor
    · simp only [touchwin, touchline, if_neg c, hk]
    · simp only [untouchwin, wtouchln, if_neg c, hk, wtouchlnRow_zero]

theorem whole_window_eq_full_range_witness :
    0 ≤ win5._maxy ∧
    touchwin (some win5) = touchline (some win5) 0 5 ∧
    untouchwin (some win5) = wtouchln (some win5) 0 5 0 ∧
    touchwin (some win5) = some (Status.OK, some full5) ∧
    untouchwin (some win5) = some (Status.OK, some clean5) :=
  ⟨by decide, (whole_window_eq_full_range.2 win5 (by decide)).1,
    (whole_window_eq_full_range.2 win5 (by decide)).2, by decide, by decide⟩

/-- C19: a count that is not positive never mutates: for every non-null
window and all integers `start` and `count` with `count <= 0`, `touchline`
and `wtouchln` (any `changed`) return `OK` when `start <= height` and `ERR`
otherwise, and in both cases the window after the call is the window before
it; so a negative count is accepted. -/
theorem nonpos_count_never_mutates (w : WINDOW) (start count changed : Int)
    (hc : count ≤ 0) :
    touchline (some w) start count =
      some (if start ≤ w._maxy then Status.OK else Status.ERR, some w) ∧
    wtouchln (some w) start count changed =
      some (if start ≤ w._maxy then Status.OK else Status.ERR, some w) := by
  by_cases h : start ≤ w._maxy
  · rw [if_pos h]
    exact ⟨touchline_count_nonpos w start count hc h,
      wtouchln_count_nonpos w start count changed hc h⟩
  · rw [if_neg h]
    exact ⟨touchline_rejected w start count (by omega),
      wtouchln_rejected w start count changed (by omega)⟩

theorem nonpos_count_never_mutates_witness :
    (-2 : Int) ≤ 0 ∧
    touchline (some win5) 3 (-2) = some (Status.OK, some win5) ∧
    wtouchln (some win5) 3 (-2) 1 = some (Status.OK, some win5) :=
  ⟨by decide, nonpos_count_never_mutates win5 3 (-2) 1 (by decide)⟩

/-- C12: the null-handle contract.  Given a null window, each of `touchwin`,
`touchline`, `untouchwin` and `wtouchln` returns `ERR` for all integer
arguments, and each of `is_linetouched` and `is_wintouched` returns false;
given a non-null window whose bound arrays have `_maxy` entries, `touchwin`
and `untouchwin` return `OK`. -/
theorem null_window_contract :
    touchwin none = some (Status.ERR, none) ∧
    (∀ start count : Int, touchline none start count = some (Status.ERR, none)) ∧
    untouchwin none = some (Status.ERR, none) ∧
    (∀ y n changed : Int, wtouchln none y n changed = some (Status.ERR, none)) ∧
    (∀ line : Int, is_linetouched none line = some false) ∧
    is_wintouched none = some false ∧
    (∀ w : WINDOW, w.wf →
      (touchwin (some w)).map Prod.fst = some Status.OK ∧
      (untouchwin (some w)).map Prod.fst = some Status.OK) := by
  refine ⟨rfl, fun _ _ => rfl, rfl, fun _ _ _ => rfl, fun _ => rfl, rfl, ?_⟩
  intro w hw
  obtain ⟨r, hr, _⟩ := touchwin_result w hw
  obtain ⟨u, hu, _⟩ := untouchwin_result w hw
  rw [hr, hu]
  exact ⟨rfl, rfl⟩

theorem null_window_contract_witness :
    win5.wf ∧
    (touchwin (some win5)).map Prod.fst = some Status.OK ∧
    (untouchwin (some win5)).map Prod.fst = some Status.OK :=
  ⟨by decide, null_window_contract.2.2.2.2.2.2 win5 (by decide)⟩

/-- C13: idempotence.  On every non-null window whose bound arrays have
`_maxy` entries, `touchwin` applied to the window `touchwin` left returns
`OK` and that same window; and when every row of the window is Clean,
`untouchwin` returns `OK` and the window exactly as it was. -/
theorem touchwin_untouchwin_idempotent (w : WINDOW) (hw : w.wf) :
    (∃ r, touchwin (some w) = some (Status.OK, some r) ∧
      touchwin (some r) = some (Status.OK, some r)) ∧
    ((∀ i : Int, 0 ≤ i → i < w._maxy →
        load w._firstch i = some _NO_CHANGE ∧ load w._lastch i = some _NO_CHANGE) →
      untouchwin (some w) = some (Status.OK, some w)) := by
  constructor
  · obtain ⟨r, hr, hmy, hmx, hf, hl, hfj, hlj⟩ := touchwin_result w hw
    have hrw : r.wf := by
      obtain ⟨h1, h2⟩ := hw
      exact ⟨by rw [hf, hmy]; exact h1, by rw [hl, hmy]; exact h2⟩
    obtain ⟨s, hs, smy, smx, _, _, sfj, slj⟩ := touchwin_result r hrw
    have hsr : s = r := by
      apply WINDOW.ext_load s r smy smx
      · intro j
        rw [sfj j, hmy]
        by_cases c : 0 ≤ j ∧ j < w._maxy
        · rw [if_pos c, hfj j, if_pos c]
        · rw [if_neg c]
      · intro j
        rw [slj j, hmy, hmx]
        by_cases c : 0 ≤ j ∧ j < w._maxy
        · rw [if_pos c, hlj j, if_pos c]
        · rw [if_neg c]
    rw [hsr] at hs
    exact ⟨r, hr, hs⟩
  · intro hclean
    obtain ⟨r, hr, hmy, hmx, _, _, hfj, hlj⟩ := untouchwin_result w hw
    have hrw : r = w := by
      apply WINDOW.ext_load r w hmy hmx
      · intro j
        rw [hfj j]
        by_cases c : 0 ≤ j ∧ j < w._maxy
        · rw [if_pos c, (hclean j c.1 c.2).1]
        · rw [if_neg c]
      · intro j
        rw [hlj j]
        by_cases c : 0 ≤ j ∧ j < w._maxy
        · rw [if_pos c, (hclean j c.1 c.2).2]
        · rw [if_neg c]
    rw [hrw] at hr
    exact hr

theorem clean5_rows (i : Int) (h0 : 0 ≤ i) (h1 : i < clean5._maxy) :
    load clean5._firstch i = some _NO_CHANGE ∧ load clean5._lastch i = some _NO_CHANGE := by
  have h : i = 0 ∨ i = 1 ∨ i = 2 ∨ i = 3 ∨ i = 4 := by
    have h5 : i < 5 := h1
    omega
  rcases h with h | h | h | h | h <;> subst h <;> exact ⟨rfl, rfl⟩

theorem touchwin_untouchwin_idempotent_witness :
    win5.wf ∧ clean5.wf ∧
    (∃ r, touchwin (some win5) = some (Status.OK, some r) ∧
      touchwin (some r) = some (Status.OK, some r)) ∧
    untouchwin (some clean5) = some (Status.OK, some clean5) :=
  ⟨by decide, by decide, (touchwin_untouchwin_idempotent win5 (by decide)).1,
    (touchwin_untouchwin_idempotent clean5 (by decide)).2 clean5_rows⟩

/-- C18: the two queries agree: on every non-null window whose bound arrays
have `_maxy` entries (so the height is not negative), `is_wintouched`
returns a value, and it is true if and only if `is_linetouched(win, row)` is
true for some row of `[0, height)`. -/
theorem is_wintouched_iff_some_linetouched (w : WINDOW) (hw : w.wf) :
    ∃ b, is_wintouched (some w) = some b ∧
      (b = true ↔
        ∃ row : Int, 0 ≤ row ∧ row < w._maxy ∧ is_linetouched (some w) row = some true) := by
  obtain ⟨b, hb, hiff⟩ := is_wintouched_spec w hw
  refine ⟨b, hb, ?_⟩
  rw [hiff]
  constructor
  · rintro ⟨i, v, h0, h1, hv, hne⟩
    refine ⟨i, h0, h1, ?_⟩
    rw [is_linetouched_row w i v h0 h1 hv]
    simp only [hne, decide_True, not_false_eq_true, ne_eq]
  · rintro ⟨i, h0, h1, ht⟩
    obtain ⟨v, hv⟩ := load_some w._firstch i h0 (by rw [hw.1]; exact h1)
    rw [is_linetouched_row w i v h0 h1 hv] at ht
    refine ⟨i, v, h0, h1, hv, ?_⟩
    simpa using ht

theorem is_wintouched_iff_some_linetouched_witness :
    win5.wf ∧ is_wintouched (some win5) = some true ∧
    is_linetouched (some win5) 1 = some true :=
  ⟨by decide,
    let ⟨_, hb, hiff⟩ := is_wintouched_iff_some_linetouched win5 (by decide)
    hb.trans (congrArg some (hiff.2 ⟨1, by decide, by decide, by decide⟩)),
    by decide⟩

theorem load_none (a : List Int) (i : Int) (h : i < 0 ∨ (a.length : Int) ≤ i) :
    load a i = none := by
  unfold load
  by_cases h0 : 0 ≤ i
  · rw [if_pos h0]
    exact List.getElem?_eq_none (by omega)
  · rw [if_neg h0]

/-- C14: `wtouchln` with `changed == 0` undoes `wtouchln` with `changed != 0`
on the same range.  On every non-null window whose bound arrays have `_maxy`
entries and for every accepted range (`y >= 0`, `n >= 0`, `y + n <= height`),
`wtouchln(win, y, n, changed)` with `changed != 0` followed by
`wtouchln(win, y, n, 0)` returns `OK` twice; the first call leaves the rows
of `[y, y + n)` fully dirty, the second leaves them
Clean and every other entry, the height and the width as they were before
both calls; when the rows of `[y, y + n)` were Clean beforehand, the window
after both calls is the window before them. -/
theorem wtouchln_clear_undoes_mark (w : WINDOW) (hw : w.wf) (y n changed : Int)
    (hy : 0 ≤ y) (hn : 0 ≤ n) (hyn : y + n ≤ w._maxy) (hch : changed ≠ 0) :
    ∃ r1 r2, wtouchln (some w) y n changed = some (Status.OK, some r1) ∧
      wtouchln (some r1) y n 0 = some (Status.OK, some r2) ∧
      r2._maxy = w._maxy ∧ r2._maxx = w._maxx ∧
      (∀ i : Int, y ≤ i → i < y + n →
        load r1._firstch i = some 0 ∧ load r1._lastch i = some (w._maxx - 1)) ∧
      (∀ i : Int, y ≤ i → i < y + n →
        load r2._firstch i = some _NO_CHANGE ∧ load r2._lastch i = some _NO_CHANGE) ∧
      (∀ i : Int, ¬ (y ≤ i ∧ i < y + n) →
        load r2._firstch i = load w._firstch i ∧ load r2._lastch i = load w._lastch i) ∧
      ((∀ i : Int, y ≤ i → i < y + n →
          load w._firstch i = some _NO_CHANGE ∧ load w._lastch i = some _NO_CHANGE) →
        r2 = w) := by
  obtain ⟨r1, h1, my1, mx1, f1, l1, fj1, lj1⟩ := wtouchln_accepted w hw y n changed hy hn hyn
  have hw1 : r1.wf := by
    obtain ⟨a, b⟩ := hw
    exact ⟨by rw [f1, my1]; exact a, by rw [l1, my1]; exact b⟩
  obtain ⟨r2, h2, my2, mx2, _, _, fj2, lj2⟩ :=
    wtouchln_accepted r1 hw1 y n 0 hy hn (by rw [my1]; exact hyn)
  have z : ¬ ((0 : Int) ≠ 0) := fun h => h rfl
  simp only [if_neg z] at fj2 lj2
  have hin : ∀ i : Int, y ≤ i → i < y + n →
      load r2._firstch i = some _NO_CHANGE ∧ load r2._lastch i = some _NO_CHANGE :=
    fun i a b => ⟨by rw [fj2 i, if_pos ⟨a, b⟩], by rw [lj2 i, if_pos ⟨a, b⟩]⟩
  have hout : ∀ i : Int, ¬ (y ≤ i ∧ i < y + n) →
      load r2._firstch i = load w._firstch i ∧ load r2._lastch i = load w._lastch i :=
    fun i c => ⟨by rw [fj2 i, if_neg c, fj1 i, if_neg c],
      by rw [lj2 i, if_neg c, lj1 i, if_neg c]⟩
  have hmark : ∀ i : Int, y ≤ i → i < y + n →
      load r1._firstch i = some 0 ∧ load r1._lastch i = some (w._maxx - 1) :=
    fun i a b => ⟨by rw [fj1 i, if_pos ⟨a, b⟩, if_pos hch],
      by rw [lj1 i, if_pos ⟨a, b⟩, if_pos hch]⟩
  refine ⟨r1, r2, h1, h2, my2.trans my1, mx2.trans mx1, hmark, hin, hout, ?_⟩
  intro hclean
  apply WINDOW.ext_load r2 w (my2.trans my1) (mx2.trans mx1)
  · intro j
    by_cases c : y ≤ j ∧ j < y + n
    · rw [(hin j c.1 c.2).1, (hclean j c.1 c.2).1]
    · exact (hout j c).1
  · intro j
    by_cases c : y ≤ j ∧ j < y + n
    · rw [(hin j c.1 c.2).2, (hclean j c.1 c.2).2]
    · exact (hout j c).2

theorem wtouchln_clear_undoes_mark_witness :
    clean5.wf ∧ (0 : Int) ≤ 1 ∧ (0 : Int) ≤ 2 ∧ (1 : Int) + 2 ≤ clean5._maxy ∧
    (1 : Int) ≠ 0 ∧
    ∃ r1, wtouchln (some clean5) 1 2 1 = some (Status.OK, some r1) ∧
      wtouchln (some r1) 1 2 0 = some (Status.OK, some clean5) :=
  ⟨by decide, by decide, by decide, by decide, by decide,
    let ⟨r1, r2, h1, h2, _, _, _, _, _, h⟩ :=
      wtouchln_clear_undoes_mark clean5 (by decide) 1 2 1 (by decide) (by decide)
        (by decide) (by decide)
    ⟨r1, h1, (h (fun i a _ => clean5_rows i (by omega) (by
      have : i < 1 + 2 := by assumption
      show i < 5
      omega))) ▸ h2⟩⟩

/-- C15: the concrete scenario.  Starting from any non-null window with
`_maxy = 5`, `_maxx = 10` and bound arrays of 5 entries, `touchwin` returns
`OK` and leaves every row with `_firstch = 0`, `_lastch = 9` (the window
`full5`); `wtouchln(win, 1, 2, 0)` then returns `OK` and leaves rows 1 and 2
Clean and rows 0, 3 and 4 with `_firstch = 0`, `_lastch = 9` (the window
`scenario5`); on it `is_linetouched(win, 1)` is false, `is_linetouched(win,
0)` is true and `is_wintouched(win)` is true. -/
theorem scenario_5_by_10 (w : WINDOW) (hw : w.wf) (h5 : w._maxy = 5) (h10 : w._maxx = 10) :
    touchwin (some w) = some (Status.OK, some full5) ∧
    wtouchln (some full5) 1 2 0 = some (Status.OK, some scenario5) ∧
    is_linetouched (some scenario5) 1 = some false ∧
    is_linetouched (some scenario5) 0 = some true ∧
    is_wintouched (some scenario5) = some true := by
  refine ⟨?_, by decide, by decide, by decide, by decide⟩
  obtain ⟨r, hr, hmy, hmx, _, _, hfj, hlj⟩ := touchwin_result w hw
  obtain ⟨a, b⟩ := hw
  have e : r = full5 := by
    apply WINDOW.ext_load r full5 (hmy.trans h5) (hmx.trans h10)
    · intro j
      rw [hfj j, h5]
      by_cases c : 0 ≤ j ∧ j < 5
      · rw [if_pos c]
        have h : j = 0 ∨ j = 1 ∨ j = 2 ∨ j = 3 ∨ j = 4 := by omega
        rcases h with h | h | h | h | h <;> subst h <;> rfl
      · rw [if_neg c, load_none w._firstch j (by omega),
          load_none full5._firstch j (by
            show j < 0 ∨ (5 : Int) ≤ j
            omega)]
    · intro j
      rw [hlj j, h5, h10]
      by_cases c : 0 ≤ j ∧ j < 5
      · rw [if_pos c]
        have h : j = 0 ∨ j = 1 ∨ j = 2 ∨ j = 3 ∨ j = 4 := by omega
        rcases h with h | h | h | h | h <;> subst h <;> rfl
      · rw [if_neg c, load_none w._lastch j (by omega),
          load_none full5._lastch j (by
            show j < 0 ∨ (5 : Int) ≤ j
            omega)]
  rw [hr, e]

theorem scenario_5_by_10_witness :
    win5.wf ∧ win5._maxy = 5 ∧ win5._maxx = 10 ∧
    touchwin (some win5) = some (Status.OK, some full5) ∧
    wtouchln (some full5) 1 2 0 = some (Status.OK, some scenario5) ∧
    is_linetouched (some scenario5) 1 = some false ∧
    is_linetouched (some scenario5) 0 = some true ∧
    is_wintouched (some scenario5) = some true :=
  ⟨by decide, by decide, by decide, scenario_5_by_10 win5 (by decide) (by decide) (by decide)⟩

/-- Rewriting the rows of `[lo, hi)` to one Clean or Dirty shape, and keeping
the others, keeps the row-state invariant. -/
theorem rowsOK_of_loads (w r : WINDOW) (lo hi fv lv : Int)
    (hy : r._maxy = w._maxy) (hx : r._maxx = w._maxx)
    (hf : ∀ j : Int, load r._firstch j =
      if lo ≤ j ∧ j < hi then some fv else load w._firstch j)
    (hl : ∀ j : Int, load r._lastch j =
      if lo ≤ j ∧ j < hi then some lv else load w._lastch j)
    (hshape : rowClean fv lv ∨ rowDirty w._maxx fv lv) (hinv : w.rowsOK) :
    r.rowsOK := by
  intro i h0 h1
  rw [hy] at h1
  rw [hf i, hl i, hx]
  by_cases c : lo ≤ i ∧ i < hi
  · rw [if_pos c, if_pos c]
    exact ⟨fv, lv, rfl, rfl, hshape⟩
  · rw [if_neg c, if_neg c]
    exact hinv i h0 h1

theorem clean5_rowsOK : clean5.rowsOK :=
  fun i h0 h1 =>
    ⟨_NO_CHANGE, _NO_CHANGE, (clean5_rows i h0 h1).1, (clean5_rows i h0 h1).2,
      Or.inl ⟨rfl, rfl⟩⟩

/-- C11, as stated, fails at width 0: the one-row window `narrow1` has height
1, width 0 and its row Clean, and `touchwin` returns `OK` and leaves the row
with `_firstch = 0`, `_lastch = -1`, which is neither Clean nor Dirty. -/
theorem touchwin_width_zero_breaks_row_invariant :
    0 ≤ narrow1._maxy ∧ 0 ≤ narrow1._maxx ∧ narrow1.wf ∧ narrow1.rowsOK ∧
    ∃ r, touchwin (some narrow1) = some (Status.OK, some r) ∧ ¬ r.rowsOK := by
  refine ⟨by decide, by decide, by decide, ?_, ⟨1, 0, [0], [-1]⟩, by decide, ?_⟩
  · intro i h0 h1
    have h : i = 0 := by
      have h' : i < 1 := h1
      omega
    subst h
    exact ⟨_NO_CHANGE, _NO_CHANGE, rfl, rfl, Or.inl ⟨rfl, rfl⟩⟩
  · intro h
    obtain ⟨f, l, hf, hl, hc⟩ := h 0 (by decide) (by decide)
    have ef : f = 0 := by
      have e : load [0] 0 = some (0 : Int) := rfl
      have hf' : load [0] 0 = some f := hf
      rw [e] at hf'
      exact (Option.some.inj hf').symm
    have el : l = -1 := by
      have e : load [-1] 0 = some (-1 : Int) := rfl
      have hl' : load [-1] 0 = some l := hl
      rw [e] at hl'
      exact (Option.some.inj hl').symm
    subst ef
    subst el
    rcases hc with ⟨h1, _⟩ | ⟨_, h2, _⟩
    · exact absurd h1 (by decide)
    · exact absurd h2 (by decide)

/-- C11, amended: on every non-null window whose bound arrays have `_maxy`
entries and in which every row is Clean or Dirty, `untouchwin` returns a
window in which every row is Clean or Dirty; so does `touchwin` when the
width is at least 1; so does `touchline` when the width is at least 1, and
`wtouchln` when the width is at least 1 or `changed == 0`, for all arguments,
accepted or rejected, with `start >= 0` or `count <= 0`. -/
theorem row_invariant_preserved (w : WINDOW) (hw : w.wf) (hinv : w.rowsOK) :
    (∃ r, untouchwin (some w) = some (Status.OK, some r) ∧ r.rowsOK) ∧
    (1 ≤ w._maxx → ∃ r, touchwin (some w) = some (Status.OK, some r) ∧ r.rowsOK) ∧
    (1 ≤ w._maxx → ∀ start count : Int, 0 ≤ start ∨ count ≤ 0 →
      ∃ st r, touchline (some w) start count = some (st, some r) ∧ r.rowsOK) ∧
    (∀ y n changed : Int, 1 ≤ w._maxx ∨ changed = 0 → 0 ≤ y ∨ n ≤ 0 →
      ∃ st r, wtouchln (some w) y n changed = some (st, some r) ∧ r.rowsOK) := by
  refine ⟨?_, ?_, ?_, ?_⟩
  · obtain ⟨r, hr, hmy, hmx, _, _, hfj, hlj⟩ := untouchwin_result w hw
    exact ⟨r, hr, rowsOK_of_loads w r 0 w._maxy _ _ hmy hmx hfj hlj
      (Or.inl ⟨rfl, rfl⟩) hinv⟩
  · intro hx
    obtain ⟨r, hr, hmy, hmx, _, _, hfj, hlj⟩ := touchwin_result w hw
    exact ⟨r, hr, rowsOK_of_loads w r 0 w._maxy _ _ hmy hmx hfj hlj
      (Or.inr ⟨le_refl 0, by omega, by omega⟩) hinv⟩
  · intro hx start count hsc
    by_cases rej : start > w._maxy ∨ start + count > w._maxy
    · exact ⟨Status.ERR, w, touchline_rejected w start count rej, hinv⟩
    · by_cases hc : count ≤ 0
      · exact ⟨Status.OK, w, touchline_count_nonpos w start count hc (by omega), hinv⟩
      · obtain ⟨r, hr, hmy, hmx, _, _, hfj, hlj⟩ :=
          touchline_accepted w hw start count (by omega) (by omega) (by omega)
        exact ⟨Status.OK, r, hr, rowsOK_of_loads w r start (start + count) _ _ hmy hmx
          hfj hlj (Or.inr ⟨le_refl 0, by omega, by omega⟩) hinv⟩
  · intro y n changed hxc hyn
    by_cases rej : y > w._maxy ∨ y + n > w._maxy
    · exact ⟨Status.ERR, w, wtouchln_rejected w y n changed rej, hinv⟩
    · by_cases hc : n ≤ 0
      · exact ⟨Status.OK, w, wtouchln_count_nonpos w y n changed hc (by omega), hinv⟩
      · obtain ⟨r, hr, hmy, hmx, _, _, hfj, hlj⟩ :=
          wtouchln_accepted w hw y n changed (by omega) (by omega) (by omega)
        refine ⟨Status.OK, r, hr, rowsOK_of_loads w r y (y + n) _ _ hmy hmx hfj hlj ?_ hinv⟩
        by_cases c : changed ≠ 0
        · rw [if_pos c, if_pos c]
          have hx : 1 ≤ w._maxx := by
            rcases hxc with h | h
            · exact h
            · exact absurd h c
          exact Or.inr ⟨le_refl 0, by omega, by omega⟩
        · rw [if_neg c, if_neg c]
          exact Or.inl ⟨rfl, rfl⟩

theorem row_invariant_preserved_witness :
    clean5.wf ∧ clean5.rowsOK ∧ 1 ≤ clean5._maxx ∧
    (∃ r, untouchwin (some clean5) = some (Status.OK, some r) ∧ r.rowsOK) ∧
    (∃ r, touchwin (some clean5) = some (Status.OK, some r) ∧ r.rowsOK) ∧
    (∃ st r, touchline (some clean5) 1 2 = some (st, some r) ∧ r.rowsOK) ∧
    (∃ st r, wtouchln (some clean5) 1 2 1 = some (st, some r) ∧ r.rowsOK) :=
  have h := row_invariant_preserved clean5 (by decide) clean5_rowsOK
  ⟨by decide, clean5_rowsOK, by decide, h.1, h.2.1 (by decide),
    h.2.2.1 (by decide) 1 2 (Or.inl (by decide)),
    h.2.2.2 1 2 1 (Or.inl (by decide)) (Or.inl (by decide))⟩

end PdcTouch
